import Mathlib

/-!
Verification of the carol storage engine core (crate `carol`).

This file gives a shallow embedding, in Lean, of the data model and the
operations of the carol on-disk file cache:

- fingerprint and path derivation (`src/carol/src/storage_manager.rs`,
  `src/carol/src/file.rs`), including an executable SHA-256;
- the store-policy expiry engine (`FileMetadata::time_to_live` and
  `FileMetadata::is_expired` in `src/carol/src/file.rs`);
- the SQLite policy (de)serialization (`src/carol/src/sqlite/models.rs`)
  and the error classifiers (`src/carol/src/sqlite/error.rs`);
- the storage manager's ingest and lookup paths
  (`StorageManager::add_file_from_stream`, `StorageManager::find_by_source`),
  over an explicit database-plus-filesystem state.

Machine integers are modelled as `Nat`/`Int` with explicit wrap-around where
the source wraps; fallible operations return `Except`.
-/

namespace Carol

set_option maxRecDepth 1000000

instance {e a : Type} [DecidableEq e] [DecidableEq a] : DecidableEq (Except e a) := fun x y =>
  match x, y with
  | .ok u, .ok v =>
      if h : u = v then .isTrue (congrArg Except.ok h)
      else .isFalse (fun he => h (Except.ok.inj he))
  | .error u, .error v =>
      if h : u = v then .isTrue (congrArg Except.error h)
      else .isFalse (fun he => h (Except.error.inj he))
  | .ok _, .error _ => .isFalse (fun he => Except.noConfusion he)
  | .error _, .ok _ => .isFalse (fun he => Except.noConfusion he)

/-! ## SHA-256 (FIPS 180-4), executable, over byte lists

The `sha256` crate used by `StorageManager::path_from_source` hashes the
UTF-8 bytes of a string and renders the digest as lowercase hex.  Words are
32-bit, modelled as `Nat` reduced modulo `2^32`.
-/

/-- Reduce a natural number to a 32-bit word. -/
def w32 (n : Nat) : Nat := n % 4294967296

/-- Rotate a 32-bit word right by `n` bits. -/
def rotr (n x : Nat) : Nat := w32 ((x >>> n) + (x <<< (32 - n)))

def ch (x y z : Nat) : Nat := (x &&& y) ^^^ ((w32 (4294967295 - x)) &&& z)

def maj (x y z : Nat) : Nat := (x &&& y) ^^^ (x &&& z) ^^^ (y &&& z)

def bigSigma0 (x : Nat) : Nat := rotr 2 x ^^^ rotr 13 x ^^^ rotr 22 x

def bigSigma1 (x : Nat) : Nat := rotr 6 x ^^^ rotr 11 x ^^^ rotr 25 x

def smallSigma0 (x : Nat) : Nat := rotr 7 x ^^^ rotr 18 x ^^^ (x >>> 3)

def smallSigma1 (x : Nat) : Nat := rotr 17 x ^^^ rotr 19 x ^^^ (x >>> 10)

/-- The 64 SHA-256 round constants. -/
def roundK : List Nat :=
  [1116352408, 1899447441, 3049323471, 3921009573,
   961987163, 1508970993, 2453635748, 2870763221,
   3624381080, 310598401, 607225278, 1426881987,
   1925078388, 2162078206, 2614888103, 3248222580,
   3835390401, 4022224774, 264347078, 604807628,
   770255983, 1249150122, 1555081692, 1996064986,
   2554220882, 2821834349, 2952996808, 3210313671,
   3336571891, 3584528711, 113926993, 338241895,
   666307205, 773529912, 1294757372, 1396182291,
   1695183700, 1986661051, 2177026350, 2456956037,
   2730485921, 2820302411, 3259730800, 3345764771,
   3516065817, 3600352804, 4094571909, 275423344,
   430227734, 506948616, 659060556, 883997877,
   958139571, 1322822218, 1537002063, 1747873779,
   1955562222, 2024104815, 2227730452, 2361852424,
   2428436474, 2756734187, 3204031479, 3329325298]

/-- SHA-256 hash state: eight 32-bit words. -/
structure Hash8 where
  a : Nat
  b : Nat
  c : Nat
  d : Nat
  e : Nat
  f : Nat
  g : Nat
  h : Nat
  deriving Repr, DecidableEq

/-- SHA-256 initial hash value. -/
def initH : Hash8 :=
  ⟨1779033703, 3144134277, 1013904242, 2773480762,
   1359893119, 2600822924, 528734635, 1541459225⟩

/-- Group a big-endian byte list into 32-bit words. -/
def bytesToWords : List Nat → List Nat
  | b0 :: b1 :: b2 :: b3 :: rest =>
      (b0 * 16777216 + b1 * 65536 + b2 * 256 + b3) :: bytesToWords rest
  | _ => []

/-- Extend the 16-word message schedule by `n` further words. -/
def scheduleExtend : Nat → List Nat → List Nat
  | 0, ws => ws
  | n + 1, ws =>
      let len := ws.length
      let next := w32 (smallSigma1 (ws.getD (len - 2) 0) + ws.getD (len - 7) 0 +
        smallSigma0 (ws.getD (len - 15) 0) + ws.getD (len - 16) 0)
      scheduleExtend n (ws ++ [next])

/-- One SHA-256 compression round. -/
def sha256Round (st : Hash8) (kw : Nat × Nat) : Hash8 :=
  let t1 := w32 (st.h + bigSigma1 st.e + ch st.e st.f st.g + kw.1 + kw.2)
  let t2 := w32 (bigSigma0 st.a + maj st.a st.b st.c)
  ⟨w32 (t1 + t2), st.a, st.b, st.c, w32 (st.d + t1), st.e, st.f, st.g⟩

/-- Compress one block, given as its 16 schedule seed words, into the hash
state. -/
def compress (H : Hash8) (blockWords : List Nat) : Hash8 :=
  let st := (roundK.zip (scheduleExtend 48 blockWords)).foldl sha256Round H
  ⟨w32 (H.a + st.a), w32 (H.b + st.b), w32 (H.c + st.c), w32 (H.d + st.d),
   w32 (H.e + st.e), w32 (H.f + st.f), w32 (H.g + st.g), w32 (H.h + st.h)⟩

/-- Big-endian 8-byte encoding of a length in bits. -/
def lenBytes (n : Nat) : List Nat :=
  [(n >>> 56) % 256, (n >>> 48) % 256, (n >>> 40) % 256, (n >>> 32) % 256,
   (n >>> 24) % 256, (n >>> 16) % 256, (n >>> 8) % 256, n % 256]

/-- SHA-256 padding: append 0x80, zeros, and the 64-bit bit length. -/
def padMessage (msg : List Nat) : List Nat :=
  let len := msg.length
  let zeros := (64 - (len + 9) % 64) % 64
  msg ++ [128] ++ List.replicate zeros 0 ++ lenBytes (len * 8)

/-- Split a word list (of length a multiple of 16, as produced from a padded
message) into 16-word blocks. -/
def wordsToBlocks : List Nat → List (List Nat)
  | w0 :: w1 :: w2 :: w3 :: w4 :: w5 :: w6 :: w7 ::
    w8 :: w9 :: w10 :: w11 :: w12 :: w13 :: w14 :: w15 :: rest =>
      [w0, w1, w2, w3, w4, w5, w6, w7, w8, w9, w10, w11, w12, w13, w14, w15] ::
        wordsToBlocks rest
  | _ => []

/-- SHA-256 of a byte list, as the final eight-word hash state. -/
def sha256Words (msg : List Nat) : Hash8 :=
  (wordsToBlocks (bytesToWords (padMessage msg))).foldl compress initH

/-- Big-endian bytes of one 32-bit word. -/
def wordBytes (w : Nat) : List Nat :=
  [(w >>> 24) % 256, (w >>> 16) % 256, (w >>> 8) % 256, w % 256]

/-- The 32 digest bytes of a final hash state. -/
def digestBytes (st : Hash8) : List Nat :=
  wordBytes st.a ++ wordBytes st.b ++ wordBytes st.c ++ wordBytes st.d ++
  wordBytes st.e ++ wordBytes st.f ++ wordBytes st.g ++ wordBytes st.h

/-- The lowercase hex digit for a value modulo 16: code 48 ('0') through 57
('9') for values below ten, code 87 + value ('a' through 'f') otherwise. -/
def hexDigitChar (n : Nat) : Char :=
  if n % 16 < 10 then Char.ofNat (48 + n % 16) else Char.ofNat (87 + n % 16)

/-- A character is a lowercase hexadecimal digit: in '0'..'9' or 'a'..'f'. -/
def IsLowerHexDigit (c : Char) : Prop :=
  ('0' ≤ c ∧ c ≤ '9') ∨ ('a' ≤ c ∧ c ≤ 'f')

instance (c : Char) : Decidable (IsLowerHexDigit c) := by
  unfold IsLowerHexDigit
  infer_instance

/-- Render bytes as lowercase hex, two digits per byte. -/
def hexOfBytes : List Nat → List Char
  | [] => []
  | b :: rest => hexDigitChar ((b >>> 4) % 16) :: hexDigitChar (b % 16) :: hexOfBytes rest

/-- SHA-256 hex digest of a byte list, as produced by the `sha256` crate. -/
def sha256Hex (msg : List Nat) : String := String.mk (hexOfBytes (digestBytes (sha256Words msg)))

/-! ## UTF-8 encoding

The `sha256` crate hashes `input.as_bytes()`, the UTF-8 bytes of the string. -/

/-- UTF-8 encoding of one scalar value. -/
def charUtf8 (c : Char) : List Nat :=
  let n := c.toNat
  if n < 128 then [n]
  else if n < 2048 then [192 + n / 64, 128 + n % 64]
  else if n < 65536 then [224 + n / 4096, 128 + (n / 64) % 64, 128 + n % 64]
  else [240 + n / 262144, 128 + (n / 4096) % 64, 128 + (n / 64) % 64, 128 + n % 64]

/-- UTF-8 bytes of a string. -/
def strUtf8 (s : String) : List Nat := (s.data.map charUtf8).flatten

/-! ## File sources (src/carol/src/file.rs) -/

/-- Model of the serialization behavior of the external `url` crate.

Modelled from the spec: URL parsing and serialization are delegated by
`FileSource` to the `url` crate (WHATWG URL), which is not part of this
repository.  Following the design's canonicalization rule — "for URL-tagged
sources, the URL's serialized form (including implicit trailing `/` for bare
authorities, e.g. `https://example.com` canonicalizes to
`https://example.com/`)" — an input of the shape `scheme://authority…` parses
as a URL, and its serialized form gains a trailing `/` exactly when nothing
follows the authority.  Inputs without a `scheme://` prefix are not URLs.
The repository's own tests (`test_file_source_as_str`,
`test_file_source_digest` in `src/carol/src/file.rs`) pin this behavior on
the inputs used below. -/
def splitSchemeAux : List Char → Option (List Char × List Char)
  | ':' :: '/' :: '/' :: rest => some ([], rest)
  | c :: rest =>
      match splitSchemeAux rest with
      | some (pre, post) => some (c :: pre, post)
      | none => none
  | [] => none

def urlParse (s : String) : Option String :=
  match splitSchemeAux s.data with
  | none => none
  | some (scheme, rest) =>
      if scheme = [] ∨ rest = [] then none
      else if '/' ∈ rest then some s
      else some (s ++ "/")

/-- File source: a parsed URL (carrying its serialized form) or a custom string.
Mirrors `enum FileSource` in `src/carol/src/file.rs`. -/
inductive FileSource where
  | url (serialized : String)
  | custom (s : String)
  deriving Repr, DecidableEq

/-- Mirrors `FileSource::parse`: try parsing as URL, else fall back to custom. -/
def FileSource.parse (input : String) : FileSource :=
  match urlParse input with
  | some u => .url u
  | none => .custom input

/-- Mirrors `FileSource::as_str`: the serialized URL, or the raw custom string. -/
def FileSource.as_str : FileSource → String
  | .url u => u
  | .custom s => s

/-- Mirrors `impl Sha256Digest for &FileSource`: SHA-256 hex digest of `as_str`. -/
def FileSource.digest (source : FileSource) : String :=
  sha256Hex (strUtf8 source.as_str)

/-- Mirrors `PathBuf::join` for the relative hex-digest component. -/
def pathJoin (dir name : String) : String := dir ++ "/" ++ name

/-- Mirrors `StorageManager::path_from_source`:
`self.dir.join(sha256::digest(source))`. -/
def path_from_source (dir : String) (source : FileSource) : String :=
  pathJoin dir source.digest

/-! ## Durations, timestamps and store policies (src/carol/src/file.rs)

UTC timestamps (`chrono::DateTime<Utc>`) are modelled as `Int` nanoseconds
since the epoch; `chrono::TimeDelta` as an `Int` nanosecond count;
`std::time::Duration` as whole seconds (`u64`, modelled `Nat`) plus a
nanosecond remainder. -/

/-- Model of `std::time::Duration`: `secs` seconds plus `nanos` nanoseconds. -/
structure Dur where
  secs : Nat
  nanos : Nat
  deriving Repr, DecidableEq

/-- A duration as a signed nanosecond count, for timestamp arithmetic. -/
def Dur.toNanos (d : Dur) : Int := (d.secs : Int) * 1000000000 + d.nanos

/-- Mirrors `chrono::TimeDelta::num_seconds`: the count of whole seconds,
truncated toward zero. -/
def numSeconds (delta : Int) : Int := delta.tdiv 1000000000

/-- Mirrors `enum StorePolicy` in `src/carol/src/file.rs`. -/
inductive StorePolicy where
  | StoreForever
  | ExpiresAfter (duration : Dur)
  | ExpiresAfterNotUsedFor (duration : Dur)
  deriving Repr, DecidableEq

/-- Mirrors `enum FileStatus` in `src/carol/src/file.rs` (and its SQLite
mirror type, to which it converts bijectively). -/
inductive FileStatus where
  | Pending
  | Ready
  | ToRemove
  | Corrupted
  deriving Repr, DecidableEq

/-- Mirrors `struct FileMetadata` in `src/carol/src/file.rs`; paths are
modelled as strings. -/
structure FileMetadata where
  source : FileSource
  filename : Option String
  path : String
  store_policy : StorePolicy
  created : Int
  last_used : Int
  deriving Repr, DecidableEq

/-- Mirrors `FileMetadata::time_to_live`. -/
def FileMetadata.time_to_live (meta : FileMetadata) (now : Int) : Option Int :=
  match meta.store_policy with
  | .StoreForever => none
  | .ExpiresAfter duration => some (meta.created + duration.toNanos - now)
  | .ExpiresAfterNotUsedFor duration => some (meta.last_used + duration.toNanos - now)

/-- Mirrors `FileMetadata::is_expired`:
`self.time_to_live(now).is_some_and(|delta| delta.num_seconds() <= 0)`. -/
def FileMetadata.is_expired (meta : FileMetadata) (now : Int) : Bool :=
  match meta.time_to_live now with
  | none => false
  | some delta => decide (numSeconds delta ≤ 0)

/-- Mirrors `struct File` in `src/carol/src/file.rs`; the id is the `i32`
primary key, modelled as `Int`. -/
structure File where
  database : String
  id : Int
  status : FileStatus
  metadata : FileMetadata
  deriving Repr, DecidableEq

/-! ## Policy (de)serialization for SQLite (src/carol/src/sqlite/models.rs)
and the error taxonomy (src/carol/src/sqlite/error.rs, src/carol/src/error.rs) -/

/-- Mirrors `enum ConvertStorePolicyError` in `src/carol/src/sqlite/error.rs`. -/
inductive ConvertStorePolicyError where
  | TryFromIntError
  | MissingPolicyData
  | BadEnumVariat (msg : String)
  deriving Repr, DecidableEq

/-- Mirrors the SQLite mirror enum `StorePolicy` in
`src/carol/src/sqlite/models.rs` (the tag column `store_policy`). -/
inductive PolicyTag where
  | StoreForever
  | ExpiresAfter
  | ExpiresAfterNotUsedFor
  deriving Repr, DecidableEq

/-- The value of `i32::MAX`. -/
def i32Max : Nat := 2147483647

/-- Mirrors `impl TryFrom<file::StorePolicy> for (StorePolicy, Option<i32>)`:
the tag plus `duration.as_secs()` narrowed to `i32` (failing past `i32::MAX`). -/
def StorePolicy.toSql (p : StorePolicy) :
    Except ConvertStorePolicyError (PolicyTag × Option Int) :=
  match p with
  | .StoreForever => .ok (.StoreForever, none)
  | .ExpiresAfter duration =>
      if duration.secs ≤ i32Max then .ok (.ExpiresAfter, some (duration.secs : Int))
      else .error .TryFromIntError
  | .ExpiresAfterNotUsedFor duration =>
      if duration.secs ≤ i32Max then .ok (.ExpiresAfterNotUsedFor, some (duration.secs : Int))
      else .error .TryFromIntError

/-- Mirrors `impl TryFrom<(StorePolicy, Option<i32>)> for file::StorePolicy`:
`data.ok_or(MissingPolicyData)?.try_into()?` (the `i32 → u64` conversion
fails exactly on negative values), then `Duration::from_secs`. -/
def StorePolicy.fromSql : PolicyTag × Option Int → Except ConvertStorePolicyError StorePolicy
  | (.StoreForever, _) => .ok .StoreForever
  | (.ExpiresAfter, none) => .error .MissingPolicyData
  | (.ExpiresAfter, some n) =>
      if n < 0 then .error .TryFromIntError else .ok (.ExpiresAfter ⟨n.toNat, 0⟩)
  | (.ExpiresAfterNotUsedFor, none) => .error .MissingPolicyData
  | (.ExpiresAfterNotUsedFor, some n) =>
      if n < 0 then .error .TryFromIntError else .ok (.ExpiresAfterNotUsedFor ⟨n.toNat, 0⟩)

/-- Mirrors `diesel::result::DatabaseErrorKind` (the kinds the classifiers
distinguish, plus a catch-all). -/
inductive DieselErrorKind where
  | UniqueViolation
  | ForeignKeyViolation
  | OtherKind (msg : String)
  deriving Repr, DecidableEq

/-- Mirrors `diesel::result::Error` (the shapes the classifiers distinguish,
plus a catch-all). -/
inductive DieselError where
  | DatabaseError (kind : DieselErrorKind) (info : String)
  | NotFound
  | OtherError (msg : String)
  deriving Repr, DecidableEq

/-- Mirrors `enum CreateNewFileError` in `src/carol/src/sqlite/error.rs`. -/
inductive CreateNewFileError where
  | StorePolicyError (e : ConvertStorePolicyError)
  | NonUtf8PathError
  deriving Repr, DecidableEq

/-- Mirrors `enum DatabaseError` in `src/carol/src/sqlite/error.rs`; the
connection/pool/migration variants carry only their message here. -/
inductive DatabaseError where
  | ConnectionError (msg : String)
  | PoolBuildError (msg : String)
  | PoolError (msg : String)
  | MigrationError (msg : String)
  | DieselError (e : DieselError)
  | StorePolicyError (e : ConvertStorePolicyError)
  | CreateNewFileError (e : CreateNewFileError)
  deriving Repr, DecidableEq

/-- Mirrors `DatabaseError::is_unique_violation` in
`src/carol/src/sqlite/error.rs`. -/
def DatabaseError.is_unique_violation : DatabaseError → Bool
  | .DieselError (.DatabaseError .UniqueViolation _) => true
  | _ => false

/-- Mirrors `DatabaseError::is_not_found` in `src/carol/src/sqlite/error.rs`. -/
def DatabaseError.is_not_found : DatabaseError → Bool
  | .DieselError .NotFound => true
  | _ => false

/-- Mirrors `std::io::ErrorKind` (the kinds this model produces). -/
inductive IoErrorKind where
  | AlreadyExists
  | NotFound
  | NoSpaceLeft
  deriving Repr, DecidableEq

/-- Mirrors `enum StorageError` in `src/carol/src/error.rs`, instantiated at
the SQLite backend's error type; the boxed custom error carries its
message. -/
inductive StorageError where
  | DatabaseError (e : DatabaseError)
  | IoError (e : IoErrorKind)
  | AwaitingError
  | NonUtf8PathError
  | CustomError (msg : String)
  | StorageDirectoryDoesNotExist
  | StorageDirectoryPathIsNotAbsolute
  deriving Repr, DecidableEq

/-! ## The SQLite metadata store over an explicit row state
(src/carol/src/sqlite/mod.rs, src/carol/src/sqlite/api.rs,
src/carol/src/sqlite/models.rs)

The database state is the list of rows of the `files` table plus the
autoincrement counter; each operation is the sequential semantics of the
corresponding transaction. -/

/-- Mirrors the row type `models::File` (the `files` table of the schema in
src/carol/src/sqlite/models.rs). -/
structure Row where
  id : Int
  source : String
  cache_path : String
  filename : Option String
  created : Int
  last_used : Int
  store_policy : PolicyTag
  store_policy_data : Option Int
  status : FileStatus
  deriving Repr, DecidableEq

/-- State of one SQLite storage database: its locator, the autoincrement
counter and the rows of the `files` table. -/
structure DB where
  uri : String
  nextId : Int
  rows : List Row
  deriving Repr, DecidableEq

/-- Mirrors `SqliteStorageDatabase::model_to_file`: decode the policy columns
and rebuild a `File`, re-parsing the stored source string. -/
def modelToFile (uri : String) (row : Row) : Except ConvertStorePolicyError File :=
  match StorePolicy.fromSql (row.store_policy, row.store_policy_data) with
  | .error e => .error e
  | .ok policy => .ok {
      database := uri
      id := row.id
      status := row.status
      metadata := {
        source := FileSource.parse row.source
        filename := row.filename
        path := row.cache_path
        store_policy := policy
        created := row.created
        last_used := row.last_used } }

/-- Mirrors `SqliteStorageDatabase::store` (`NewFile::try_from` then
`api::insert`): encode the policy, insert a `Pending` row with a fresh id.

Modelled from the spec: the UNIQUE constraints of the `files` table live in
the schema migrations, which are not under src/; per §4.3 and §6.3 of the
design ("UNIQUE constraints on (`source`) and (`cache_path`) are
load-bearing", confirmed by the repository test `test_insert_failure`), the
insert fails with a Diesel unique-violation when a row with the same source
string or the same cache path already exists, and ids are assigned by
autoincrement. -/
def DB.store (db : DB) (meta : FileMetadata) : Except DatabaseError (Int × DB) :=
  match meta.store_policy.toSql with
  | .error e => .error (.CreateNewFileError (.StorePolicyError e))
  | .ok (tag, data) =>
      if db.rows.any (fun r => r.source == meta.source.as_str || r.cache_path == meta.path) then
        .error (.DieselError (.DatabaseError .UniqueViolation "UNIQUE constraint failed"))
      else
        .ok (db.nextId,
          { db with
            nextId := db.nextId + 1
            rows := db.rows ++ [{
              id := db.nextId
              source := meta.source.as_str
              cache_path := meta.path
              filename := meta.filename
              created := meta.created
              last_used := meta.last_used
              store_policy := tag
              store_policy_data := data
              status := .Pending }] })

/-- Convert a list of rows, stopping at the first failing policy decode;
mirrors the `collect::<Result<_, _>>()` in
`SqliteStorageDatabase::select_by_source`. -/
def rowsToFiles (uri : String) : List Row → Except ConvertStorePolicyError (List File)
  | [] => .ok []
  | r :: rest =>
      match modelToFile uri r with
      | .error e => .error e
      | .ok f =>
          match rowsToFiles uri rest with
          | .error e => .error e
          | .ok fl => .ok (f :: fl)

/-- Mirrors `SqliteStorageDatabase::select_by_source` (`api::get_by_source`):
all rows whose source column equals the source's string form. -/
def DB.select_by_source (db : DB) (source : FileSource) : Except DatabaseError (List File) :=
  match rowsToFiles db.uri (db.rows.filter (fun r => r.source == source.as_str)) with
  | .error e => .error (.StorePolicyError e)
  | .ok files => .ok files

/-- Mirrors `SqliteStorageDatabase::update_status` (`api::update_status`):
set the status column of the row with the given primary key and return the
updated record; Diesel reports `NotFound` when no row matches. -/
def DB.update_status (db : DB) (id : Int) (status : FileStatus) :
    Except DatabaseError (File × DB) :=
  match db.rows.find? (fun r => r.id == id) with
  | none => .error (.DieselError .NotFound)
  | some row =>
      match modelToFile db.uri { row with status := status } with
      | .error e => .error (.StorePolicyError e)
      | .ok file => .ok (file,
          { db with rows := db.rows.map (fun r => if r.id == id then { r with status := status } else r) })

/-- Mirrors `SqliteStorageDatabase::remove` (`api::delete`): delete the row
with the given primary key; a no-op when it is absent. -/
def DB.remove (db : DB) (id : Int) : Except DatabaseError DB :=
  .ok { db with rows := db.rows.filter (fun r => r.id != id) }

/-! ## The filesystem state and the tokio-fs operations the manager uses -/

/-- Filesystem state: contents by path, plus a disk-full flag under which
every data write reports `NoSpaceLeft`. -/
structure FS where
  files : String → Option (List Nat)
  diskFull : Bool

/-- Mirrors `tokio::fs::File::create_new`: create the file empty, failing if
a file already exists at the path. -/
def fsCreateNew (fs : FS) (path : String) : Except IoErrorKind FS :=
  match fs.files path with
  | some _ => .error .AlreadyExists
  | none => .ok { fs with files := fun p => if p = path then some [] else fs.files p }

/-- Mirrors `AsyncWriteExt::write_all` on the open file: append the chunk,
failing with no-space-left when the disk is full. -/
def fsWriteAll (fs : FS) (path : String) (chunk : List Nat) : Except IoErrorKind FS :=
  if fs.diskFull then .error .NoSpaceLeft
  else
    match fs.files path with
    | none => .error .NotFound
    | some content =>
        .ok { fs with files := fun p => if p = path then some (content ++ chunk) else fs.files p }

/-- Mirrors `tokio::fs::remove_file`: delete the file, failing if absent. -/
def fsRemoveFile (fs : FS) (path : String) : Except IoErrorKind FS :=
  match fs.files path with
  | none => .error .NotFound
  | some _ => .ok { fs with files := fun p => if p = path then none else fs.files p }

/-! ## The storage manager (src/carol/src/storage_manager.rs)

`add_file_from_stream` is embedded as a function of the call's inputs and
the initial database and filesystem states, returning the outcome together
with the final states and the unconsumed remainder of the stream.  The model
is sequential: no other task runs during the call, so the database does not
change underneath the `Pending`-wait loop and a `Pending` lookup result
repeats forever; that case is recorded as the `diverges` outcome. -/

/-- One item of an ingest byte stream: a chunk of bytes, or a stream-level
error (carried as its message). -/
abbrev StreamItem : Type := Except String (List Nat)

/-- How a call to `add_file_from_stream` finished: a returned `File`, a
returned error, a Rust `panic` (with its message), or no return at all (the
`Pending`-wait loop spinning forever against an unchanging database). -/
inductive Outcome where
  | ok (file : File)
  | err (e : StorageError)
  | panicked (msg : String)
  | diverges
  deriving Repr, DecidableEq

/-- Result of a manager call: outcome, final database and filesystem states,
and the unconsumed remainder of the supplied stream. -/
structure CallResult where
  outcome : Outcome
  db : DB
  fs : FS
  stream : List StreamItem

/-- Mirrors `StorageManager::find_by_source`: `select_by_source`, then the
first record if any. -/
def find_by_source (db : DB) (source : FileSource) : Except StorageError (Option File) :=
  match db.select_by_source source with
  | .error e => .error (.DatabaseError e)
  | .ok files => .ok files.head?

/-- Mirrors the chunk loop of `add_file_from_stream`'s `run` closure:
`while let Some(chunk_result) = stream.next().await { ... write_all ... }`.
Returns the failure if any, the filesystem state reached, and the items not
consumed. -/
def writeChunks : FS → String → List StreamItem → Option StorageError × FS × List StreamItem
  | fs, _, [] => (none, fs, [])
  | fs, _, (Except.error e) :: rest => (some (.CustomError e), fs, rest)
  | fs, path, (Except.ok chunk) :: rest =>
      match fsWriteAll fs path chunk with
      | .error io => (some (.IoError io), fs, rest)
      | .ok fs1 => writeChunks fs1 path rest

/-- Mirrors the `revert` closure of `add_file_from_stream` and its call site
`revert().await?; Err(err)`: remove the file, then the row; a failure of
either step is returned in place of the original error. -/
def runRevert (db : DB) (fs : FS) (path : String) (id : Int) (orig : StorageError)
    (rest : List StreamItem) : CallResult :=
  match fsRemoveFile fs path with
  | .error io => ⟨.err (.IoError io), db, fs, rest⟩
  | .ok fs1 =>
      match db.remove id with
      | .error e => ⟨.err (.DatabaseError e), db, fs1, rest⟩
      | .ok db1 => ⟨.err orig, db1, fs1, rest⟩

/-- Mirrors `StorageManager::add_file_from_stream` in
`src/carol/src/storage_manager.rs`. -/
def add_file_from_stream (dir : String) (db : DB) (fs : FS) (source : FileSource)
    (store_policy : StorePolicy) (filename : Option String) (stream : List StreamItem)
    (now : Int) : CallResult :=
  let path := path_from_source dir source
  let meta : FileMetadata :=
    { source := source, filename := filename, path := path
      store_policy := store_policy, created := now, last_used := now }
  match db.store meta with
  | .ok (id, db1) =>
      (match fsCreateNew fs path with
       | .error io => runRevert db1 fs path id (.IoError io) stream
       | .ok fs1 =>
           match writeChunks fs1 path stream with
           | (some e, fs2, rest) => runRevert db1 fs2 path id e rest
           | (none, fs2, rest) =>
               match db1.update_status id .Ready with
               | .ok (file, db2) => ⟨.ok file, db2, fs2, rest⟩
               | .error e => runRevert db1 fs2 path id (.DatabaseError e) rest)
  | .error e =>
      if e.is_unique_violation then
        match find_by_source db source with
        | .error se => ⟨.err se, db, fs, stream⟩
        | .ok (some file) =>
            if file.status = .Ready then ⟨.ok file, db, fs, stream⟩
            else if file.status = .Pending then ⟨.diverges, db, fs, stream⟩
            else ⟨.panicked "await error", db, fs, stream⟩
        | .ok none => ⟨.panicked "await error", db, fs, stream⟩
      else ⟨.panicked (reprStr e), db, fs, stream⟩

/-- Has the policy's duration (when present) no sub-second remainder? -/
def StorePolicy.isWholeSeconds : StorePolicy → Bool
  | .StoreForever => true
  | .ExpiresAfter d => d.nanos == 0
  | .ExpiresAfterNotUsedFor d => d.nanos == 0

/-- Does the policy's duration (when present) fit a signed 32-bit second
count? -/
def StorePolicy.fitsI32 : StorePolicy → Bool
  | .StoreForever => true
  | .ExpiresAfter d => decide (d.secs ≤ i32Max)
  | .ExpiresAfterNotUsedFor d => decide (d.secs ≤ i32Max)

/-! ## Helper lemmas -/

lemma numSeconds_nonpos_iff (d : Int) : numSeconds d ≤ 0 ↔ d < 1000000000 := by
  unfold numSeconds
  rcases d with m | m
  · have h : (Int.ofNat m).tdiv 1000000000 = Int.ofNat (m / 1000000000) := rfl
    rw [h]
    simp only [Int.ofNat_eq_natCast]
    omega
  · have h : (Int.negSucc m).tdiv 1000000000 = -Int.ofNat ((m + 1) / 1000000000) := rfl
    rw [h, Int.negSucc_eq, Int.ofNat_eq_natCast]
    omega

lemma hexDigitChar_hex (n : Nat) : IsLowerHexDigit (hexDigitChar n) := by
  have h16 : n % 16 < 16 := Nat.mod_lt _ (by norm_num)
  unfold hexDigitChar
  set k := n % 16 with hk
  interval_cases k <;> decide

lemma hexOfBytes_length (bs : List Nat) : (hexOfBytes bs).length = 2 * bs.length := by
  induction bs with
  | nil => rfl
  | cons b rest ih => simp [hexOfBytes, ih]; ring

lemma hexOfBytes_mem (bs : List Nat) (c : Char) (hc : c ∈ hexOfBytes bs) :
    IsLowerHexDigit c := by
  induction bs with
  | nil => simp [hexOfBytes] at hc
  | cons b rest ih =>
      simp only [hexOfBytes, List.mem_cons] at hc
      rcases hc with h | h | h
      · exact h ▸ hexDigitChar_hex _
      · exact h ▸ hexDigitChar_hex _
      · exact ih h

lemma digestBytes_length (st : Hash8) : (digestBytes st).length = 32 := by
  simp [digestBytes, wordBytes]

lemma sha256Hex_length (msg : List Nat) : (sha256Hex msg).length = 64 := by
  show (hexOfBytes (digestBytes (sha256Words msg))).length = 64
  rw [hexOfBytes_length, digestBytes_length]

lemma sha256Hex_data_hex (msg : List Nat) (c : Char) (hc : c ∈ (sha256Hex msg).data) :
    IsLowerHexDigit c := by
  exact hexOfBytes_mem _ _ hc

lemma fromSql_of_toSql (p : StorePolicy) (tag : PolicyTag) (data : Option Int)
    (h : p.toSql = .ok (tag, data)) : ∃ q, StorePolicy.fromSql (tag, data) = .ok q := by
  rcases p with _ | d | d
  · exact ⟨.StoreForever, by simp [StorePolicy.toSql] at h; rw [← h.1, ← h.2]; rfl⟩
  · rw [StorePolicy.toSql] at h
    by_cases hle : d.secs ≤ i32Max
    · rw [if_pos hle] at h
      injection h with h
      injection h with h1 h2
      refine ⟨.ExpiresAfter ⟨d.secs, 0⟩, ?_⟩
      rw [← h1, ← h2]
      simp [StorePolicy.fromSql]
    · rw [if_neg hle] at h
      exact absurd h (by simp)
  · rw [StorePolicy.toSql] at h
    by_cases hle : d.secs ≤ i32Max
    · rw [if_pos hle] at h
      injection h with h
      injection h with h1 h2
      refine ⟨.ExpiresAfterNotUsedFor ⟨d.secs, 0⟩, ?_⟩
      rw [← h1, ← h2]
      simp [StorePolicy.fromSql]
    · rw [if_neg hle] at h
      exact absurd h (by simp)

lemma any_or_false {α : Type} (l : List α) (p q : α → Bool)
    (hp : l.any p = false) (hq : l.any q = false) :
    (l.any fun a => p a || q a) = false := by
  rw [List.any_eq_false] at hp hq ⊢
  intro a ha
  simp only [Bool.or_eq_true, not_or]
  exact ⟨hp a ha, hq a ha⟩

lemma find_fresh_row (rows : List Row) (row : Row) (n : Int)
    (hwf : (rows.all fun r => decide (r.id < n)) = true) (hid : row.id = n) :
    ((rows ++ [row]).find? fun r => r.id == n) = some row := by
  induction rows with
  | nil => simp [List.find?, hid]
  | cons r rs ih =>
      simp only [List.all_cons, Bool.and_eq_true] at hwf
      have hr : (r.id == n) = false := by
        simp only [beq_eq_false_iff_ne, ne_eq]
        exact ne_of_lt (of_decide_eq_true hwf.1)
      simpa [List.find?, hr] using ih hwf.2

lemma filter_fresh_row (rows : List Row) (row : Row) (n : Int)
    (hwf : (rows.all fun r => decide (r.id < n)) = true) (hid : row.id = n) :
    ((rows ++ [row]).filter fun r => r.id != n) = rows := by
  rw [List.filter_append]
  have h1 : (rows.filter fun r => r.id != n) = rows := by
    rw [List.filter_eq_self]
    intro r hr
    have := of_decide_eq_true (List.all_eq_true.mp hwf r hr)
    simp only [bne_iff_ne, ne_eq]
    exact ne_of_lt this
  have h2 : ([row].filter fun r => r.id != n) = [] := by
    simp [hid]
  rw [h1, h2, List.append_nil]

lemma select_no_match (db : DB) (source : FileSource)
    (hsrc : (db.rows.any fun r => r.source == source.as_str) = false) :
    db.select_by_source source = .ok [] := by
  unfold DB.select_by_source
  have h : (db.rows.filter fun r => r.source == source.as_str) = [] := by
    rw [List.filter_eq_nil]
    intro r hr
    rw [List.any_eq_false] at hsrc
    exact hsrc r hr
  rw [h]
  rfl

lemma writeChunks_ok (path : String) (chunks : List (List Nat)) :
    ∀ (fs : FS) (content : List Nat), fs.diskFull = false → fs.files path = some content →
    writeChunks fs path (chunks.map Except.ok) =
      (none,
       { fs with files := fun p => if p = path then some (content ++ chunks.flatten) else fs.files p },
       []) := by
  induction chunks with
  | nil =>
      intro fs content hd hc
      have hfun : (fun p => if p = path then some (content ++ ([] : List (List Nat)).flatten)
          else fs.files p) = fs.files := by
        funext p
        by_cases hp : p = path
        · subst hp
          simp [hc]
        · simp [hp]
      simp only [List.map_nil, writeChunks, hfun]
  | cons c cs ih =>
      intro fs content hd hc
      have hw : fsWriteAll fs path c =
          .ok { fs with files := fun p => if p = path then some (content ++ c) else fs.files p } := by
        simp [fsWriteAll, hd, hc]
      simp only [List.map_cons, writeChunks, hw]
      rw [ih { fs with files := fun p => if p = path then some (content ++ c) else fs.files p }
        (content ++ c) hd (by simp)]
      have hfun : (fun p => if p = path then some (content ++ c ++ cs.flatten)
            else if p = path then some (content ++ c) else fs.files p) =
          fun p => if p = path then some (content ++ (c :: cs).flatten) else fs.files p := by
        funext p
        by_cases hp : p = path <;> simp [hp, List.append_assoc]
      simp only [hfun]

lemma writeChunks_error (path : String) (chunks : List (List Nat)) (e : String)
    (rest : List StreamItem) :
    ∀ (fs : FS) (content : List Nat), fs.diskFull = false → fs.files path = some content →
    writeChunks fs path (chunks.map Except.ok ++ Except.error e :: rest) =
      (some (.CustomError e),
       { fs with files := fun p => if p = path then some (content ++ chunks.flatten) else fs.files p },
       rest) := by
  induction chunks with
  | nil =>
      intro fs content hd hc
      have hfun : (fun p => if p = path then some (content ++ ([] : List (List Nat)).flatten)
          else fs.files p) = fs.files := by
        funext p
        by_cases hp : p = path
        · subst hp
          simp [hc]
        · simp [hp]
      simp only [List.map_nil, List.nil_append, writeChunks, hfun]
  | cons c cs ih =>
      intro fs content hd hc
      have hw : fsWriteAll fs path c =
          .ok { fs with files := fun p => if p = path then some (content ++ c) else fs.files p } := by
        simp [fsWriteAll, hd, hc]
      simp only [List.map_cons, List.cons_append, writeChunks, hw, List.append_eq]
      rw [ih { fs with files := fun p => if p = path then some (content ++ c) else fs.files p }
        (content ++ c) hd (by simp)]
      have hfun : (fun p => if p = path then some (content ++ c ++ cs.flatten)
            else if p = path then some (content ++ c) else fs.files p) =
          fun p => if p = path then some (content ++ (c :: cs).flatten) else fs.files p := by
        funext p
        by_cases hp : p = path <;> simp [hp, List.append_assoc]
      simp only [hfun]

lemma store_fresh (db : DB) (meta : FileMetadata) (tag : PolicyTag) (data : Option Int)
    (hts : meta.store_policy.toSql = .ok (tag, data))
    (hcond : (db.rows.any fun r =>
      r.source == meta.source.as_str || r.cache_path == meta.path) = false) :
    db.store meta = .ok (db.nextId,
      ⟨db.uri, db.nextId + 1, db.rows ++
        [⟨db.nextId, meta.source.as_str, meta.path, meta.filename, meta.created,
          meta.last_used, tag, data, .Pending⟩]⟩) := by
  unfold DB.store
  rw [hts]
  simp only [hcond, Bool.false_eq_true, if_false]

lemma update_status_append (uri : String) (nextId : Int) (rows : List Row) (row : Row)
    (q : StorePolicy) (st : FileStatus)
    (hwf : (rows.all fun r => decide (r.id < row.id)) = true)
    (hq : StorePolicy.fromSql (row.store_policy, row.store_policy_data) = .ok q) :
    DB.update_status ⟨uri, nextId, rows ++ [row]⟩ row.id st =
      .ok (⟨uri, row.id, st,
             ⟨FileSource.parse row.source, row.filename, row.cache_path, q,
               row.created, row.last_used⟩⟩,
           ⟨uri, nextId, (rows ++ [row]).map fun r =>
             if r.id == row.id then { r with status := st } else r⟩) := by
  unfold DB.update_status
  dsimp only
  rw [find_fresh_row rows row row.id hwf rfl]
  unfold modelToFile
  dsimp only
  rw [hq]

lemma run_revert_clean (db : DB) (fs : FS) (path : String) (id : Int) (orig : StorageError)
    (rest : List StreamItem) (content : List Nat) (hf : fs.files path = some content) :
    runRevert db fs path id orig rest =
      ⟨.err orig, ⟨db.uri, db.nextId, db.rows.filter fun r => r.id != id⟩,
       { fs with files := fun p => if p = path then none else fs.files p }, rest⟩ := by
  unfold runRevert fsRemoveFile
  rw [hf]
  rfl

/-! ## Claim theorems -/

/-- C1: for every finite stream all of whose chunks succeed (including the
empty stream), when the initial store does not fail — no existing row shares
the source or the derived path, the policy is encodable, and no file is
already present at the derived path — `add_file_from_stream` returns a
`File` with status `Ready`, the file at `path_from_source(source)` contains
exactly the concatenation of the stream's chunks (a zero-byte file for the
empty stream), and the stream is fully consumed. -/
theorem ingest_success_writes_stream_concatenation
    (dir : String) (db : DB) (fs : FS) (source : FileSource) (policy : StorePolicy)
    (filename : Option String) (chunks : List (List Nat)) (now : Int)
    (hpol : policy.toSql.isOk = true)
    (hsrc : (db.rows.any fun r => r.source == source.as_str) = false)
    (hpath : (db.rows.any fun r => r.cache_path == path_from_source dir source) = false)
    (hwf : (db.rows.all fun r => decide (r.id < db.nextId)) = true)
    (hfile : fs.files (path_from_source dir source) = none)
    (hdisk : fs.diskFull = false) :
    ∃ file,
      (add_file_from_stream dir db fs source policy filename (chunks.map Except.ok) now).outcome
        = .ok file ∧
      file.status = .Ready ∧
      (add_file_from_stream dir db fs source policy filename (chunks.map Except.ok) now).fs.files
        (path_from_source dir source) = some chunks.flatten ∧
      (add_file_from_stream dir db fs source policy filename (chunks.map Except.ok) now).stream
        = [] := by
  rcases hts : policy.toSql with e | td
  · rw [hts] at hpol
    simp [Except.isOk, Except.toBool] at hpol
  obtain ⟨tag, data⟩ := td
  obtain ⟨q, hq⟩ := fromSql_of_toSql policy tag data hts
  have hcond : (db.rows.any fun r =>
      r.source == source.as_str || r.cache_path == path_from_source dir source) = false :=
    any_or_false _ _ _ hsrc hpath
  have hstore := store_fresh db
    ⟨source, filename, path_from_source dir source, policy, now, now⟩ tag data hts hcond
  have hcreate : fsCreateNew fs (path_from_source dir source) =
      .ok { fs with files := fun p =>
        if p = path_from_source dir source then some [] else fs.files p } := by
    unfold fsCreateNew
    rw [hfile]
  have hwrite := writeChunks_ok (path_from_source dir source) chunks
    { fs with files := fun p =>
        if p = path_from_source dir source then some [] else fs.files p }
    [] hdisk (by simp)
  have hupd := update_status_append db.uri (db.nextId + 1) db.rows
    ⟨db.nextId, source.as_str, path_from_source dir source, filename, now, now, tag, data,
      .Pending⟩ q .Ready hwf hq
  refine ⟨⟨db.uri, db.nextId, .Ready,
    ⟨FileSource.parse source.as_str, filename, path_from_source dir source, q, now, now⟩⟩,
    ?_, rfl, ?_, ?_⟩ <;>
    simp only [add_file_from_stream, hstore, hcreate, hwrite, hupd] <;>
    simp

/-- C1 witness: a two-chunk stream ingested into an empty store. -/
theorem ingest_success_witness :
    ∃ file,
      (add_file_from_stream "/tmp" ⟨"someurl", 1, []⟩ ⟨fun _ => none, false⟩
        (.custom "somesource") .StoreForever none ([[104, 105]].map Except.ok) 0).outcome
        = .ok file ∧
      file.status = .Ready ∧
      (add_file_from_stream "/tmp" ⟨"someurl", 1, []⟩ ⟨fun _ => none, false⟩
        (.custom "somesource") .StoreForever none ([[104, 105]].map Except.ok) 0).fs.files
        (path_from_source "/tmp" (.custom "somesource"))
        = some ([[104, 105]] : List (List Nat)).flatten ∧
      (add_file_from_stream "/tmp" ⟨"someurl", 1, []⟩ ⟨fun _ => none, false⟩
        (.custom "somesource") .StoreForever none ([[104, 105]].map Except.ok) 0).stream = [] :=
  ingest_success_writes_stream_concatenation "/tmp" ⟨"someurl", 1, []⟩ ⟨fun _ => none, false⟩
    (.custom "somesource") .StoreForever none [[104, 105]] 0 rfl rfl rfl rfl rfl rfl

/-- C2: if the byte stream yields an error, or a file write fails during
ingest (the filesystem refusing the data write), after the Pending row was
reserved, the call deletes the partial file and the Pending row and returns
an error — the stream's error in the first case, the I/O error in the
second; afterwards `select_by_source` yields no record and no file exists
at the derived path. -/
theorem ingest_failure_reverts_file_and_row :
    (∀ (dir : String) (db : DB) (fs : FS) (source : FileSource) (policy : StorePolicy)
       (filename : Option String) (chunks : List (List Nat)) (e : String)
       (rest : List StreamItem) (now : Int),
       policy.toSql.isOk = true →
       (db.rows.any fun r => r.source == source.as_str) = false →
       (db.rows.any fun r => r.cache_path == path_from_source dir source) = false →
       (db.rows.all fun r => decide (r.id < db.nextId)) = true →
       fs.files (path_from_source dir source) = none →
       fs.diskFull = false →
       (add_file_from_stream dir db fs source policy filename
           (chunks.map Except.ok ++ Except.error e :: rest) now).outcome
         = .err (.CustomError e) ∧
       (add_file_from_stream dir db fs source policy filename
           (chunks.map Except.ok ++ Except.error e :: rest) now).db.select_by_source source
         = .ok [] ∧
       (add_file_from_stream dir db fs source policy filename
           (chunks.map Except.ok ++ Except.error e :: rest) now).fs.files
           (path_from_source dir source) = none ∧
       (add_file_from_stream dir db fs source policy filename
           (chunks.map Except.ok ++ Except.error e :: rest) now).stream = rest) ∧
    (∀ (dir : String) (db : DB) (fs : FS) (source : FileSource) (policy : StorePolicy)
       (filename : Option String) (chunk : List Nat) (rest : List StreamItem) (now : Int),
       policy.toSql.isOk = true →
       (db.rows.any fun r => r.source == source.as_str) = false →
       (db.rows.any fun r => r.cache_path == path_from_source dir source) = false →
       (db.rows.all fun r => decide (r.id < db.nextId)) = true →
       fs.files (path_from_source dir source) = none →
       fs.diskFull = true →
       (add_file_from_stream dir db fs source policy filename
           (Except.ok chunk :: rest) now).outcome = .err (.IoError .NoSpaceLeft) ∧
       (add_file_from_stream dir db fs source policy filename
           (Except.ok chunk :: rest) now).db.select_by_source source = .ok [] ∧
       (add_file_from_stream dir db fs source policy filename
           (Except.ok chunk :: rest) now).fs.files (path_from_source dir source) = none ∧
       (add_file_from_stream dir db fs source policy filename
           (Except.ok chunk :: rest) now).stream = rest) := by
  constructor
  · intro dir db fs source policy filename chunks e rest now hpol hsrc hpath hwf hfile hdisk
    rcases hts : policy.toSql with e' | td
    · rw [hts] at hpol
      simp [Except.isOk, Except.toBool] at hpol
    obtain ⟨tag, data⟩ := td
    have hcond : (db.rows.any fun r =>
        r.source == source.as_str || r.cache_path == path_from_source dir source) = false :=
      any_or_false _ _ _ hsrc hpath
    have hstore := store_fresh db
      ⟨source, filename, path_from_source dir source, policy, now, now⟩ tag data hts hcond
    have hcreate : fsCreateNew fs (path_from_source dir source) =
        .ok { fs with files := fun p =>
          if p = path_from_source dir source then some [] else fs.files p } := by
      unfold fsCreateNew
      rw [hfile]
    have hwrite := writeChunks_error (path_from_source dir source) chunks e rest
      { fs with files := fun p =>
          if p = path_from_source dir source then some [] else fs.files p }
      [] hdisk (by simp)
    have hfilter := filter_fresh_row db.rows
      ⟨db.nextId, source.as_str, path_from_source dir source, filename, now, now, tag, data,
        .Pending⟩ db.nextId hwf rfl
    have hsel := select_no_match ⟨db.uri, db.nextId + 1, db.rows⟩ source hsrc
    refine ⟨?_, ?_, ?_, ?_⟩ <;>
      simp only [add_file_from_stream, hstore, hcreate, hwrite, runRevert, fsRemoveFile,
        DB.remove, hfilter] <;>
      simp [hsel]
  · intro dir db fs source policy filename chunk rest now hpol hsrc hpath hwf hfile hdisk
    rcases hts : policy.toSql with e' | td
    · rw [hts] at hpol
      simp [Except.isOk, Except.toBool] at hpol
    obtain ⟨tag, data⟩ := td
    have hcond : (db.rows.any fun r =>
        r.source == source.as_str || r.cache_path == path_from_source dir source) = false :=
      any_or_false _ _ _ hsrc hpath
    have hstore := store_fresh db
      ⟨source, filename, path_from_source dir source, policy, now, now⟩ tag data hts hcond
    have hcreate : fsCreateNew fs (path_from_source dir source) =
        .ok { fs with files := fun p =>
          if p = path_from_source dir source then some [] else fs.files p } := by
      unfold fsCreateNew
      rw [hfile]
    have hwrite : writeChunks
        { fs with files := fun p =>
            if p = path_from_source dir source then some [] else fs.files p }
        (path_from_source dir source) (Except.ok chunk :: rest) =
        (some (.IoError .NoSpaceLeft),
         { fs with files := fun p =>
             if p = path_from_source dir source then some [] else fs.files p },
         rest) := by
      simp [writeChunks, fsWriteAll, hdisk]
    have hfilter := filter_fresh_row db.rows
      ⟨db.nextId, source.as_str, path_from_source dir source, filename, now, now, tag, data,
        .Pending⟩ db.nextId hwf rfl
    have hsel := select_no_match ⟨db.uri, db.nextId + 1, db.rows⟩ source hsrc
    refine ⟨?_, ?_, ?_, ?_⟩ <;>
      simp only [add_file_from_stream, hstore, hcreate, hwrite, runRevert, fsRemoveFile,
        DB.remove, hfilter] <;>
      simp [hsel]

/-- C2 witness: against an empty store, a stream with one good chunk and
then an error; and a one-chunk stream whose write fails on a full disk. -/
theorem ingest_failure_witness :
    ((add_file_from_stream "/tmp" ⟨"someurl", 1, []⟩ ⟨fun _ => none, false⟩
        (.custom "somesource") .StoreForever none
        ([[112]].map Except.ok ++ Except.error "boom" :: []) 0).outcome
      = .err (.CustomError "boom") ∧
     (add_file_from_stream "/tmp" ⟨"someurl", 1, []⟩ ⟨fun _ => none, false⟩
        (.custom "somesource") .StoreForever none
        ([[112]].map Except.ok ++ Except.error "boom" :: []) 0).db.select_by_source
        (.custom "somesource") = .ok [] ∧
     (add_file_from_stream "/tmp" ⟨"someurl", 1, []⟩ ⟨fun _ => none, false⟩
        (.custom "somesource") .StoreForever none
        ([[112]].map Except.ok ++ Except.error "boom" :: []) 0).fs.files
        (path_from_source "/tmp" (.custom "somesource")) = none ∧
     (add_file_from_stream "/tmp" ⟨"someurl", 1, []⟩ ⟨fun _ => none, false⟩
        (.custom "somesource") .StoreForever none
        ([[112]].map Except.ok ++ Except.error "boom" :: []) 0).stream = []) ∧
    ((add_file_from_stream "/tmp" ⟨"someurl", 1, []⟩ ⟨fun _ => none, true⟩
        (.custom "somesource") .StoreForever none (Except.ok [112] :: []) 0).outcome
      = .err (.IoError .NoSpaceLeft) ∧
     (add_file_from_stream "/tmp" ⟨"someurl", 1, []⟩ ⟨fun _ => none, true⟩
        (.custom "somesource") .StoreForever none (Except.ok [112] :: []) 0).db.select_by_source
        (.custom "somesource") = .ok [] ∧
     (add_file_from_stream "/tmp" ⟨"someurl", 1, []⟩ ⟨fun _ => none, true⟩
        (.custom "somesource") .StoreForever none (Except.ok [112] :: []) 0).fs.files
        (path_from_source "/tmp" (.custom "somesource")) = none ∧
     (add_file_from_stream "/tmp" ⟨"someurl", 1, []⟩ ⟨fun _ => none, true⟩
        (.custom "somesource") .StoreForever none (Except.ok [112] :: []) 0).stream = []) :=
  ⟨ingest_failure_reverts_file_and_row.1 "/tmp" ⟨"someurl", 1, []⟩ ⟨fun _ => none, false⟩
     (.custom "somesource") .StoreForever none [[112]] "boom" [] 0 rfl rfl rfl rfl rfl rfl,
   ingest_failure_reverts_file_and_row.2 "/tmp" ⟨"someurl", 1, []⟩ ⟨fun _ => none, true⟩
     (.custom "somesource") .StoreForever none [112] [] 0 rfl rfl rfl rfl rfl rfl⟩

/-- C4: when the initial store hits a unique violation because a record for
the same source exists and that record is Ready, the call returns the
existing `File` (same id), consumes no chunk of the stream, and leaves the
database and the filesystem (hence the stored bytes) unchanged. -/
theorem ingest_existing_ready_returns_without_consuming
    (dir : String) (db : DB) (fs : FS) (source : FileSource) (policy : StorePolicy)
    (filename : Option String) (stream : List StreamItem) (now : Int) (f : File)
    (hpol : policy.toSql.isOk = true)
    (hsrc : (db.rows.any fun r => r.source == source.as_str) = true)
    (hfind : find_by_source db source = .ok (some f))
    (hready : f.status = .Ready) :
    add_file_from_stream dir db fs source policy filename stream now =
      ⟨.ok f, db, fs, stream⟩ := by
  rcases hts : policy.toSql with e | td
  · rw [hts] at hpol
    simp [Except.isOk, Except.toBool] at hpol
  obtain ⟨tag, data⟩ := td
  have hcond : (db.rows.any fun r =>
      r.source == source.as_str || r.cache_path == path_from_source dir source) = true := by
    rw [List.any_eq_true] at hsrc ⊢
    obtain ⟨r, hr, h⟩ := hsrc
    exact ⟨r, hr, by simp [h]⟩
  have hstore : db.store ⟨source, filename, path_from_source dir source, policy, now, now⟩ =
      .error (.DieselError (.DatabaseError .UniqueViolation "UNIQUE constraint failed")) := by
    unfold DB.store
    rw [hts]
    simp only [hcond, if_true]
  simp only [add_file_from_stream, hstore, DatabaseError.is_unique_violation, if_true, hfind,
    hready]

/-- C4 witness: ingest against a store already holding a Ready record for
the same source; the untouched stream still holds its one chunk. -/
theorem ingest_existing_ready_witness :
    add_file_from_stream "/tmp"
        ⟨"u", 2, [⟨1, "somesource", "/x", none, 0, 5, .StoreForever, none, .Ready⟩]⟩
        ⟨fun _ => none, false⟩ (.custom "somesource") .StoreForever none [Except.ok [1]] 9 =
      ⟨.ok ⟨"u", 1, .Ready, ⟨.custom "somesource", none, "/x", .StoreForever, 0, 5⟩⟩,
       ⟨"u", 2, [⟨1, "somesource", "/x", none, 0, 5, .StoreForever, none, .Ready⟩]⟩,
       ⟨fun _ => none, false⟩, [Except.ok [1]]⟩ :=
  ingest_existing_ready_returns_without_consuming "/tmp"
    ⟨"u", 2, [⟨1, "somesource", "/x", none, 0, 5, .StoreForever, none, .Ready⟩]⟩
    ⟨fun _ => none, false⟩ (.custom "somesource") .StoreForever none [Except.ok [1]] 9
    ⟨"u", 1, .Ready, ⟨.custom "somesource", none, "/x", .StoreForever, 0, 5⟩⟩
    rfl rfl (by decide) rfl

/-- C3 (code evaluated at the failing inputs): in the unique-violation
branch, when the existing record is ToRemove or Corrupted, or when no
record matches the source (the unique violation came from the path column),
the call panics with "await error" instead of returning
`StorageError::AwaitingError`. -/
theorem await_branch_panics_on_failed_entry :
    (add_file_from_stream "/tmp"
        ⟨"u", 2, [⟨1, "somesource", "/x", none, 0, 0, .StoreForever, none, .ToRemove⟩]⟩
        ⟨fun _ => none, false⟩ (.custom "somesource") .StoreForever none [] 0).outcome
      = .panicked "await error" ∧
    (add_file_from_stream "/tmp"
        ⟨"u", 2, [⟨1, "somesource", "/x", none, 0, 0, .StoreForever, none, .Corrupted⟩]⟩
        ⟨fun _ => none, false⟩ (.custom "somesource") .StoreForever none [] 0).outcome
      = .panicked "await error" ∧
    (add_file_from_stream "/tmp"
        ⟨"u", 2, [⟨1, "other", path_from_source "/tmp" (.custom "somesource"), none, 0, 0,
          .StoreForever, none, .Ready⟩]⟩
        ⟨fun _ => none, false⟩ (.custom "somesource") .StoreForever none [] 0).outcome
      = .panicked "await error" :=
  ⟨by decide, by decide, by decide⟩

/-- C5 (code evaluated at the failing input): when a write fails with
no-space-left, the call reverts (removes the fresh file and row) and
returns the I/O error; no eviction is invoked — the pre-existing record and
its file survive untouched — and no retry happens. -/
theorem no_space_left_returns_error_without_eviction :
    (add_file_from_stream "/tmp"
        ⟨"u", 5, [⟨1, "other", "/tmp/other", none, 0, 0, .StoreForever, none, .Ready⟩]⟩
        ⟨fun p => if p = "/tmp/other" then some [1] else none, true⟩
        (.custom "somesource") .StoreForever none [Except.ok [104]] 0).outcome
      = .err (.IoError .NoSpaceLeft) ∧
    (add_file_from_stream "/tmp"
        ⟨"u", 5, [⟨1, "other", "/tmp/other", none, 0, 0, .StoreForever, none, .Ready⟩]⟩
        ⟨fun p => if p = "/tmp/other" then some [1] else none, true⟩
        (.custom "somesource") .StoreForever none [Except.ok [104]] 0).db
      = ⟨"u", 6, [⟨1, "other", "/tmp/other", none, 0, 0, .StoreForever, none, .Ready⟩]⟩ ∧
    (add_file_from_stream "/tmp"
        ⟨"u", 5, [⟨1, "other", "/tmp/other", none, 0, 0, .StoreForever, none, .Ready⟩]⟩
        ⟨fun p => if p = "/tmp/other" then some [1] else none, true⟩
        (.custom "somesource") .StoreForever none [Except.ok [104]] 0).fs.files "/tmp/other"
      = some [1] ∧
    (add_file_from_stream "/tmp"
        ⟨"u", 5, [⟨1, "other", "/tmp/other", none, 0, 0, .StoreForever, none, .Ready⟩]⟩
        ⟨fun p => if p = "/tmp/other" then some [1] else none, true⟩
        (.custom "somesource") .StoreForever none [Except.ok [104]] 0).fs.files
        (path_from_source "/tmp" (.custom "somesource")) = none :=
  ⟨by decide, by decide, by decide, by decide⟩

/-- C9 (code evaluated at the failing input): a read-through hit returns
the Ready record with `last_used` exactly as stored (5), and an ingest that
collapses to the existing Ready record at a later time (99) returns it with
`last_used` still 5 and leaves the database rows unchanged — neither path
advances `last_used`. -/
theorem read_paths_leave_last_used_unchanged :
    find_by_source ⟨"u", 2,
        [⟨1, "somesource", "/x", none, 0, 5, .ExpiresAfterNotUsedFor, some 3600, .Ready⟩]⟩
        (.custom "somesource")
      = .ok (some ⟨"u", 1, .Ready,
          ⟨.custom "somesource", none, "/x", .ExpiresAfterNotUsedFor ⟨3600, 0⟩, 0, 5⟩⟩) ∧
    (add_file_from_stream "/tmp"
        ⟨"u", 2, [⟨1, "somesource", "/x", none, 0, 5, .ExpiresAfterNotUsedFor, some 3600,
          .Ready⟩]⟩
        ⟨fun _ => none, false⟩ (.custom "somesource") .StoreForever none [Except.ok [1]]
        99).outcome
      = .ok ⟨"u", 1, .Ready,
          ⟨.custom "somesource", none, "/x", .ExpiresAfterNotUsedFor ⟨3600, 0⟩, 0, 5⟩⟩ ∧
    (add_file_from_stream "/tmp"
        ⟨"u", 2, [⟨1, "somesource", "/x", none, 0, 5, .ExpiresAfterNotUsedFor, some 3600,
          .Ready⟩]⟩
        ⟨fun _ => none, false⟩ (.custom "somesource") .StoreForever none [Except.ok [1]]
        99).db
      = ⟨"u", 2, [⟨1, "somesource", "/x", none, 0, 5, .ExpiresAfterNotUsedFor, some 3600,
          .Ready⟩]⟩ :=
  ⟨by decide, by decide, by decide⟩

/-- C6 (amended): for every metadata and time, `time_to_live` is `none` for
`StoreForever`, `(created + d) − now` for `ExpiresAfter{d}` and
`(last_used + d) − now` for `ExpiresAfterNotUsedFor{d}`; and `is_expired` is
true iff `time_to_live` is some value strictly less than one second — the
code compares the truncated whole-second count of the TTL to zero, so a
positive sub-second TTL already counts as expired. -/
theorem expiry_formulas_and_subsecond_threshold :
    ∀ (meta : FileMetadata) (now : Int),
      (meta.time_to_live now =
        match meta.store_policy with
        | .StoreForever => none
        | .ExpiresAfter d => some (meta.created + d.toNanos - now)
        | .ExpiresAfterNotUsedFor d => some (meta.last_used + d.toNanos - now)) ∧
      (meta.is_expired now = true ↔
        ∃ delta, meta.time_to_live now = some delta ∧ delta < 1000000000) := by
  intro meta now
  constructor
  · rfl
  · unfold FileMetadata.is_expired
    cases h : meta.time_to_live now with
    | none => simp
    | some delta => simp [numSeconds_nonpos_iff]

/-- C6 counterexample: a record with policy `ExpiresAfter{10s}` created at
time 0, observed at 9.5s, has a strictly positive time-to-live of 0.5s and
is nonetheless reported expired, refuting "is_expired is true iff
time_to_live is some value ≤ 0". -/
theorem is_expired_true_with_positive_ttl :
    FileMetadata.is_expired
      ⟨.custom "s", none, "p", .ExpiresAfter ⟨10, 0⟩, 0, 0⟩ 9500000000 = true ∧
    FileMetadata.time_to_live
      ⟨.custom "s", none, "p", .ExpiresAfter ⟨10, 0⟩, 0, 0⟩ 9500000000 = some 500000000 ∧
    ¬ (500000000 : Int) ≤ 0 := by
  refine ⟨by decide, by decide, by decide⟩

/-- C7: for every policy whose duration (when present) is a whole number of
seconds not exceeding `i32::MAX`, decoding the SQL-encoded `(tag, data)`
pair yields the policy back, with the data slot absent exactly for
`StoreForever`; encoding a policy whose duration exceeds `i32::MAX` seconds
fails, as does decoding a timed tag with absent data or a negative data
value — each failing with a `ConvertStorePolicyError`, a variant of the
backend error type distinct from the generic Diesel errors (and classified
as neither unique-violation nor not-found). -/
theorem store_policy_sql_serialization :
    (∀ p : StorePolicy, p.isWholeSeconds = true → p.fitsI32 = true →
      ∃ tag data, p.toSql = .ok (tag, data) ∧ StorePolicy.fromSql (tag, data) = .ok p ∧
        (data = none ↔ p = .StoreForever)) ∧
    (∀ d : Dur, i32Max < d.secs →
      StorePolicy.toSql (.ExpiresAfter d) = .error .TryFromIntError ∧
      StorePolicy.toSql (.ExpiresAfterNotUsedFor d) = .error .TryFromIntError) ∧
    (StorePolicy.fromSql (.ExpiresAfter, none) = .error .MissingPolicyData ∧
     StorePolicy.fromSql (.ExpiresAfterNotUsedFor, none) = .error .MissingPolicyData) ∧
    (∀ n : Int, n < 0 →
      StorePolicy.fromSql (.ExpiresAfter, some n) = .error .TryFromIntError ∧
      StorePolicy.fromSql (.ExpiresAfterNotUsedFor, some n) = .error .TryFromIntError) ∧
    (∀ (ce : ConvertStorePolicyError) (de : DieselError),
      DatabaseError.StorePolicyError ce ≠ DatabaseError.DieselError de ∧
      (DatabaseError.StorePolicyError ce).is_unique_violation = false ∧
      (DatabaseError.StorePolicyError ce).is_not_found = false) := by
  refine ⟨?_, ?_, ⟨rfl, rfl⟩, ?_, ?_⟩
  · intro p hwhole hfits
    rcases p with _ | d | d
    · exact ⟨.StoreForever, none, rfl, rfl, by simp⟩
    · rcases d with ⟨secs, nanos⟩
      simp only [StorePolicy.isWholeSeconds, beq_iff_eq] at hwhole
      simp only [StorePolicy.fitsI32, decide_eq_true_eq] at hfits
      subst hwhole
      refine ⟨.ExpiresAfter, some (secs : Int), ?_, ?_, by simp⟩
      · simp [StorePolicy.toSql, hfits]
      · simp [StorePolicy.fromSql]
    · rcases d with ⟨secs, nanos⟩
      simp only [StorePolicy.isWholeSeconds, beq_iff_eq] at hwhole
      simp only [StorePolicy.fitsI32, decide_eq_true_eq] at hfits
      subst hwhole
      refine ⟨.ExpiresAfterNotUsedFor, some (secs : Int), ?_, ?_, by simp⟩
      · simp [StorePolicy.toSql, hfits]
      · simp [StorePolicy.fromSql]
  · intro d hd
    constructor <;> simp [StorePolicy.toSql, Nat.not_le.mpr hd]
  · intro n hn
    constructor <;> simp [StorePolicy.fromSql, hn]
  · intro ce de
    refine ⟨by simp, rfl, rfl⟩

/-- C7 witness: the round-trip at `ExpiresAfter{42s}`, the overflow failure
at `i32::MAX + 1` seconds, and the negative-data decode failure at `-42`. -/
theorem store_policy_sql_serialization_witness :
    (∃ tag data, StorePolicy.toSql (.ExpiresAfter ⟨42, 0⟩) = .ok (tag, data) ∧
      StorePolicy.fromSql (tag, data) = .ok (.ExpiresAfter ⟨42, 0⟩) ∧
      (data = none ↔ StorePolicy.ExpiresAfter ⟨42, 0⟩ = .StoreForever)) ∧
    (StorePolicy.toSql (.ExpiresAfter ⟨2147483648, 0⟩) = .error .TryFromIntError ∧
     StorePolicy.toSql (.ExpiresAfterNotUsedFor ⟨2147483648, 0⟩) = .error .TryFromIntError) ∧
    (StorePolicy.fromSql (.ExpiresAfter, some (-42)) = .error .TryFromIntError ∧
     StorePolicy.fromSql (.ExpiresAfterNotUsedFor, some (-42)) = .error .TryFromIntError) :=
  ⟨store_policy_sql_serialization.1 (.ExpiresAfter ⟨42, 0⟩) (by decide) (by decide),
   store_policy_sql_serialization.2.1 ⟨2147483648, 0⟩ (by decide),
   store_policy_sql_serialization.2.2.2.1 (-42) (by decide)⟩

/-- C8: `path_from_source` is a pure function equal to the storage directory
joined with the SHA-256 hex digest of the source's canonical string form
(the URL's serialized form for URL sources, the raw string for custom
sources); the digest is 64 characters, all lowercase hex; and the inputs
"https://example.com" and "https://example.com/" yield the same path. -/
theorem path_from_source_sha256_hex :
    ∀ (dir : String) (source : FileSource),
      path_from_source dir source = pathJoin dir (sha256Hex (strUtf8 source.as_str)) ∧
      (sha256Hex (strUtf8 source.as_str)).length = 64 ∧
      (∀ c ∈ (sha256Hex (strUtf8 source.as_str)).data, IsLowerHexDigit c) ∧
      path_from_source dir (FileSource.parse "https://example.com") =
        path_from_source dir (FileSource.parse "https://example.com/") := by
  intro dir source
  refine ⟨rfl, sha256Hex_length _, fun c hc => sha256Hex_data_hex _ c hc, ?_⟩
  have h : FileSource.parse "https://example.com" = FileSource.parse "https://example.com/" := by
    decide
  rw [h]

/-- C10: for every backend error value, `is_unique_violation` holds exactly
on a Diesel database error of kind `UniqueViolation`, `is_not_found` holds
exactly on Diesel's `NotFound`, and no error satisfies both. -/
theorem error_classifiers_exclusive :
    ∀ e : DatabaseError,
      (e.is_unique_violation = true ↔
        ∃ info, e = .DieselError (.DatabaseError .UniqueViolation info)) ∧
      (e.is_not_found = true ↔ e = .DieselError .NotFound) ∧
      ¬ (e.is_unique_violation = true ∧ e.is_not_found = true) := by
  intro e
  rcases e with m | m | m | m | de | ce | cfe
  case DieselError =>
    rcases de with ⟨kind, info⟩ | _ | m
    · rcases kind with _ | _ | m <;>
        simp [DatabaseError.is_unique_violation, DatabaseError.is_not_found]
    · simp [DatabaseError.is_unique_violation, DatabaseError.is_not_found]
    · simp [DatabaseError.is_unique_violation, DatabaseError.is_not_found]
  all_goals simp [DatabaseError.is_unique_violation, DatabaseError.is_not_found]

end Carol
